import Mathlib

/-!
Verification of the SNR analysis pipeline of `snr_analysis.py`.

The script computes signal-to-noise ratios between original and compressed
audio signals.  Samples are modelled as exact rationals (the claims about the
numeric policy are stated over exact arithmetic).  The NumPy float outcomes
that are not ordinary numbers are modelled by a tagged result type:

* `np.mean` of an empty array is NaN; the comparison `NaN == 0` is `False`,
  and `10 * np.log10(NaN)` is NaN, so `calculate_snr` on empty inputs
  returns NaN.  (For non-empty inputs of unequal length NumPy raises a
  broadcast error; the script only ever calls the function on equal-length
  inputs, and every theorem below restricts to that domain.)
* when `noise_power == 0` the function returns `np.inf` (the sentinel).
* when `signal_power` is zero and `noise_power` is not, the computed ratio
  is zero and `10 * np.log10(0.0)` is `-inf`.
* otherwise the result is the finite decibel value
  `10 * log10 (signal_power / noise_power)`; the `finite` constructor
  carries the exact power ratio, and `SnrResult.asDb` interprets it as the
  real decibel number.
-/

namespace SnrAnalysis

/-- Mean of the squared samples (line 7: `np.mean(np.square(original))`). -/
def signal_power (original : List ℚ) : ℚ :=
  ((original.map fun x => x * x).sum) / (original.length : ℚ)

/-- Elementwise difference `original - compressed` of two NumPy arrays of
equal length. -/
def diff_signal (original compressed : List ℚ) : List ℚ :=
  List.zipWith (fun x y => x - y) original compressed

/-- Mean of the squared differences
(line 8: `np.mean(np.square(original - compressed))`). -/
def noise_power (original compressed : List ℚ) : ℚ :=
  (((diff_signal original compressed).map fun x => x * x).sum) /
    ((diff_signal original compressed).length : ℚ)

/-- Result of `calculate_snr`, a Python float tagged by kind: NaN, `np.inf`
(the perfect-reconstruction sentinel), `-inf`, or a finite decibel value
`10 * log10 r` represented by its exact power ratio `r`. -/
inductive SnrResult where
  | nan : SnrResult
  | inf : SnrResult
  | negInf : SnrResult
  | finite : ℚ → SnrResult
deriving DecidableEq

/-- Lines 6-11 of `snr_analysis.py`:

    def calculate_snr(original, compressed):
        signal_power = np.mean(np.square(original))
        noise_power = np.mean(np.square(original - compressed))
        if noise_power == 0:
            return np.inf
        return 10 * np.log10(signal_power / noise_power)

On empty inputs both means are NaN, the zero test on NaN fails, and the
final expression evaluates to NaN. -/
def calculate_snr (original compressed : List ℚ) : SnrResult :=
  if original.length = 0 ∨ compressed.length = 0 then SnrResult.nan
  else if noise_power original compressed = 0 then SnrResult.inf
  else if signal_power original = 0 then SnrResult.negInf
  else SnrResult.finite (signal_power original / noise_power original compressed)

/-- Decibel interpretation of a result: a finite result with power ratio `r`
denotes the real number `10 * log10 r`; NaN and the two infinities are not
finite decibel values. -/
noncomputable def SnrResult.asDb : SnrResult → Option ℝ
  | SnrResult.finite r => some (10 * Real.logb 10 (r : ℝ))
  | SnrResult.nan => none
  | SnrResult.inf => none
  | SnrResult.negInf => none

/-- One call of `calculate_snr` together with the state of its two argument
arrays afterwards.  The NumPy operations used by the function
(`np.square`, `np.mean`, array subtraction) all allocate fresh arrays and
never write to their operands, so a call returns its result and leaves both
arguments exactly as they were. -/
def calculate_snr_run (original compressed : List ℚ) :
    SnrResult × List ℚ × List ℚ :=
  (calculate_snr original compressed, original, compressed)

/-- Lines 35-37: truncate both signals to the minimum of the two lengths. -/
def align (original_signal compressed_signal : List ℚ) : List ℚ × List ℚ :=
  let min_length := min original_signal.length compressed_signal.length
  (original_signal.take min_length, compressed_signal.take min_length)

/-- One entry of the static catalog (lines 14-19): file identifiers,
algorithm label, and nominal size (MB), duration (seconds), bitrate (kbps). -/
structure CatalogEntry where
  original : String
  compressed : String
  algorithm : String
  size_mb : ℚ
  duration_sec : ℕ
  bitrate_kbps : ℕ
deriving DecidableEq

/-- The hardcoded catalog `files` of lines 14-19. -/
def files : List CatalogEntry :=
  [ { original := "elliot-og.wav", compressed := "elliot-mp3.mp3",
      algorithm := "ELLIOT-MP3", size_mb := 2.53,
      duration_sec := 2 * 60 + 36, bitrate_kbps := 128 },
    { original := "flow-og.wav", compressed := "flow-aac.aac",
      algorithm := "FLOW-AAC", size_mb := 3.14,
      duration_sec := 3 * 60 + 25, bitrate_kbps := 160 },
    { original := "sinatra-og.wav", compressed := "sinatra-flac.flac",
      algorithm := "SINATRA-FLAC", size_mb := 16.00,
      duration_sec := 3 * 60 + 14, bitrate_kbps := 1000 },
    { original := "waltz-og.wav", compressed := "waltz-ogg.ogg",
      algorithm := "WALTZ-OGG", size_mb := 2.60,
      duration_sec := 3 * 60 + 50, bitrate_kbps := 192 } ]

/-- The data appended for one catalog entry in the loop body (lines 44-49):
one slot of each of the parallel result lists, gathered into a record. -/
structure AnalysisRecord where
  compressed_snr : SnrResult
  wav_snr : SnrResult
  algorithm : String
  size_mb : ℚ
  duration_min : ℚ
  bitrate_kbps : ℕ
deriving DecidableEq

/-- Loop body of lines 30-49 for a single catalog entry, with the audio
decoder abstracted as a function `load` from a path to its samples (the
sample rate returned by `librosa.load` is never used by the computation):
load both files, truncate to the common length, compute both SNR values and
record them with the entry's static metadata (duration converted from
seconds to minutes). -/
def processEntry (load : String → List ℚ) (file : CatalogEntry) :
    AnalysisRecord :=
  let original_signal := load file.original
  let compressed_signal := load file.compressed
  let aligned := align original_signal compressed_signal
  { compressed_snr := calculate_snr aligned.1 aligned.2
    wav_snr := calculate_snr aligned.1 aligned.1
    algorithm := file.algorithm
    size_mb := file.size_mb
    duration_min := (file.duration_sec : ℚ) / 60
    bitrate_kbps := file.bitrate_kbps }

/-- The whole catalog loop (lines 30-49): one record per catalog entry, in
catalog order. -/
def processFiles (load : String → List ℚ) (fs : List CatalogEntry) :
    List AnalysisRecord :=
  fs.map (processEntry load)

/-- Python float values as they appear in the visualization lists: an
ordinary real number, positive or negative infinity, or NaN. -/
inductive PyFloat where
  | real : ℝ → PyFloat
  | inf : PyFloat
  | negInf : PyFloat
  | nan : PyFloat

/-- Interpretation of an SNR result as the Python float stored in the result
lists: a finite result with power ratio `r` is the number `10 * log10 r`. -/
noncomputable def SnrResult.toPy : SnrResult → PyFloat
  | SnrResult.inf => PyFloat.inf
  | SnrResult.negInf => PyFloat.negInf
  | SnrResult.nan => PyFloat.nan
  | SnrResult.finite r => PyFloat.real (10 * Real.logb 10 (r : ℝ))

/-- Display substitution of lines 56-57: `100 if v == np.inf else v`.
The comparison `v == np.inf` is true exactly for positive infinity (it is
false for NaN), so the sentinel becomes the float `100.0` and every other
value passes through unchanged. -/
def pyVisual : PyFloat → PyFloat
  | PyFloat.inf => PyFloat.real 100
  | PyFloat.real x => PyFloat.real x
  | PyFloat.negInf => PyFloat.negInf
  | PyFloat.nan => PyFloat.nan

/-- Bar annotation produced by lines 69-74: either the infinity glyph, or a
numeric text label showing the value. -/
inductive BarLabel where
  | infinityGlyph : BarLabel
  | numeric : PyFloat → BarLabel

/-- Labelling rule of lines 69-74 (and 92-96): a bar whose value compares
equal to `np.inf` gets the infinity glyph, every other bar gets a numeric
label of its value. -/
def barLabel : PyFloat → BarLabel
  | PyFloat.inf => BarLabel.infinityGlyph
  | PyFloat.real x => BarLabel.numeric (PyFloat.real x)
  | PyFloat.negInf => BarLabel.numeric PyFloat.negInf
  | PyFloat.nan => BarLabel.numeric PyFloat.nan

/- ### Helper lemmas about power sums -/

/-- Sums of squares are nonnegative. -/
lemma sum_sq_nonneg (l : List ℚ) : 0 ≤ (l.map fun x => x * x).sum := by
  induction l with
  | nil => simp
  | cons x xs ih =>
      simp only [List.map_cons, List.sum_cons]
      exact add_nonneg (mul_self_nonneg x) ih

/-- A sum of squares is zero exactly when every sample is zero. -/
lemma sum_sq_eq_zero_iff (l : List ℚ) :
    (l.map fun x => x * x).sum = 0 ↔ ∀ x ∈ l, x = 0 := by
  induction l with
  | nil => simp
  | cons x xs ih =>
      simp only [List.map_cons, List.sum_cons, List.mem_cons]
      constructor
      · intro h
        have hx : 0 ≤ x * x := mul_self_nonneg x
        have hs : 0 ≤ (xs.map fun x => x * x).sum := sum_sq_nonneg xs
        have h1 : x * x = 0 := le_antisymm (by linarith) hx
        have h2 : (xs.map fun x => x * x).sum = 0 := le_antisymm (by linarith) hs
        exact fun y hy => hy.elim (fun e => e ▸ mul_self_eq_zero.mp h1)
          (fun hmem => (ih.mp h2) y hmem)
      · intro h
        have hx : x = 0 := h x (Or.inl rfl)
        have hs : (xs.map fun x => x * x).sum = 0 :=
          ih.mpr fun y hy => h y (Or.inr hy)
        simp [hx, hs]

/-- The difference of a signal with itself is the all-zero signal. -/
lemma diff_signal_self (a : List ℚ) :
    diff_signal a a = a.map fun _ => (0 : ℚ) := by
  unfold diff_signal
  induction a with
  | nil => rfl
  | cons x xs ih => simp [ih]

/-- Comparing a signal with itself yields zero noise power. -/
lemma noise_power_self (a : List ℚ) : noise_power a a = 0 := by
  unfold noise_power
  rw [diff_signal_self]
  have h : ((a.map fun _ => (0 : ℚ)).map fun x => x * x).sum = 0 := by
    rw [sum_sq_eq_zero_iff]
    intro x hx
    simp at hx
    exact hx.2
  rw [h, zero_div]

/-- For equal-length signals the squared-difference sum vanishes exactly when
the signals are equal. -/
lemma diff_sq_sum_eq_zero_iff (a : List ℚ) :
    ∀ b : List ℚ, a.length = b.length →
      (((diff_signal a b).map fun x => x * x).sum = 0 ↔ a = b) := by
  induction a with
  | nil =>
      intro b hb
      cases b with
      | nil => simp [diff_signal]
      | cons y ys => simp at hb
  | cons x xs ih =>
      intro b hb
      cases b with
      | nil => simp at hb
      | cons y ys =>
          simp only [List.length_cons, Nat.succ_inj] at hb
          simp only [diff_signal, List.zipWith_cons_cons, List.map_cons,
            List.sum_cons]
          have hx : 0 ≤ (x - y) * (x - y) := mul_self_nonneg _
          have hs : 0 ≤ ((List.zipWith (fun x y => x - y) xs ys).map
              fun x => x * x).sum := sum_sq_nonneg _
          constructor
          · intro h
            have h1 : (x - y) * (x - y) = 0 := le_antisymm (by linarith) hx
            have h2 : ((List.zipWith (fun x y => x - y) xs ys).map
                fun x => x * x).sum = 0 := le_antisymm (by linarith) hs
            have hxy : x = y := by
              have := mul_self_eq_zero.mp h1
              linarith [sub_eq_zero.mp this]
            have hxs : xs = ys := (ih ys hb).mp h2
            rw [hxy, hxs]
          · intro h
            injection h with h1 h2
            subst h1
            subst h2
            simp [((ih xs rfl).mpr rfl : _)]

/-- The difference list of equal-length signals has the common length. -/
lemma diff_signal_length (a b : List ℚ) (h : a.length = b.length) :
    (diff_signal a b).length = a.length := by
  simp [diff_signal, h]

/-- For equal-length non-empty signals, noise power is zero exactly when the
signals are equal. -/
lemma noise_power_eq_zero_iff (a b : List ℚ) (hlen : a.length = b.length)
    (hpos : 0 < a.length) : noise_power a b = 0 ↔ a = b := by
  unfold noise_power
  rw [diff_signal_length a b hlen]
  have hn : (a.length : ℚ) ≠ 0 := by
    exact_mod_cast Nat.pos_iff_ne_zero.mp hpos
  rw [div_eq_zero_iff]
  simp only [hn, or_false]
  exact_mod_cast diff_sq_sum_eq_zero_iff a b hlen

/-- Comparing a non-empty signal with itself reaches the sentinel branch. -/
lemma calculate_snr_self (a : List ℚ) (h : a ≠ []) :
    calculate_snr a a = SnrResult.inf := by
  unfold calculate_snr
  have hlen : ¬(a.length = 0 ∨ a.length = 0) := by
    simp only [or_self, List.length_eq_zero]
    exact h
  rw [if_neg hlen, if_pos (noise_power_self a)]

/-- Length of the first aligned signal. -/
lemma align_fst_length (a b : List ℚ) :
    (align a b).1.length = min a.length b.length := by
  simp only [align, List.length_take]
  omega

/-- Length of the second aligned signal. -/
lemma align_snd_length (a b : List ℚ) :
    (align a b).2.length = min a.length b.length := by
  simp only [align, List.length_take]
  omega

/-- Scaling every sample by `c` scales a sum of squares by `c ^ 2`. -/
lemma sum_sq_map_smul (c : ℚ) (l : List ℚ) :
    ((l.map fun x => c * x).map fun x => x * x).sum
      = c ^ 2 * (l.map fun x => x * x).sum := by
  induction l with
  | nil => simp
  | cons x xs ih =>
      simp only [List.map_cons, List.sum_cons, ih]
      ring

/-- Scaling both signals scales their elementwise difference. -/
lemma diff_signal_smul (c : ℚ) (a : List ℚ) :
    ∀ b : List ℚ, diff_signal (a.map fun x => c * x) (b.map fun x => c * x)
      = (diff_signal a b).map fun x => c * x := by
  unfold diff_signal
  induction a with
  | nil => intro b; simp
  | cons x xs ih =>
      intro b
      cases b with
      | nil => simp
      | cons y ys =>
          simp only [List.map_cons, List.zipWith_cons_cons, ih ys,
            List.map_cons, List.cons.injEq, and_true]
          ring

/-- Scaling every sample by `c` scales the signal power by `c ^ 2`. -/
lemma signal_power_smul (c : ℚ) (a : List ℚ) :
    signal_power (a.map fun x => c * x) = c ^ 2 * signal_power a := by
  unfold signal_power
  rw [sum_sq_map_smul, List.length_map, mul_div_assoc]

/-- Scaling both signals by `c` scales the noise power by `c ^ 2`. -/
lemma noise_power_smul (c : ℚ) (a b : List ℚ) :
    noise_power (a.map fun x => c * x) (b.map fun x => c * x)
      = c ^ 2 * noise_power a b := by
  unfold noise_power
  rw [diff_signal_smul, sum_sq_map_smul, List.length_map, mul_div_assoc]

/- ### Claim theorems -/

/-- C2: for every non-empty sample sequence `a`, comparing `a` to itself
returns the perfect-reconstruction sentinel `np.inf`; it never returns a
finite value and never signals an error. -/
theorem snr_self_is_sentinel (a : List ℚ) (h : a ≠ []) :
    calculate_snr a a = SnrResult.inf :=
  calculate_snr_self a h

theorem snr_self_is_sentinel_witness :
    ([(1 : ℚ)] ≠ []) ∧ calculate_snr [(1 : ℚ)] [(1 : ℚ)] = SnrResult.inf :=
  ⟨by decide, snr_self_is_sentinel [(1 : ℚ)] (by decide)⟩

/-- C3: for equal-length non-empty inputs, the result is the sentinel if and
only if the computed noise power is exactly zero — the test is an exact
equality, and the logarithm is never evaluated on the sentinel path. -/
theorem snr_sentinel_iff_zero_noise (a b : List ℚ)
    (hlen : a.length = b.length) (hpos : 0 < a.length) :
    calculate_snr a b = SnrResult.inf ↔ noise_power a b = 0 := by
  unfold calculate_snr
  have h0 : ¬(a.length = 0 ∨ b.length = 0) := by omega
  rw [if_neg h0]
  by_cases hn : noise_power a b = 0
  · simp [hn]
  · rw [if_neg hn]
    by_cases hs : signal_power a = 0 <;> simp [hs, hn]

theorem snr_sentinel_iff_zero_noise_witness :
    (([(1 : ℚ)]).length = ([(2 : ℚ)]).length ∧ 0 < ([(1 : ℚ)]).length) ∧
    (calculate_snr [(1 : ℚ)] [(2 : ℚ)] = SnrResult.inf ↔
      noise_power [(1 : ℚ)] [(2 : ℚ)] = 0) :=
  ⟨by decide, snr_sentinel_iff_zero_noise [(1 : ℚ)] [(2 : ℚ)] rfl (by decide)⟩

/-- C6: the code has no guard for empty inputs.  On two empty sequences both
means are NaN (`np.mean` of an empty array), the zero test on NaN is false,
and `calculate_snr` returns NaN instead of raising a DegenerateSignal
error. -/
theorem snr_empty_input_nan :
    calculate_snr ([] : List ℚ) ([] : List ℚ) = SnrResult.nan := by decide

/-- C1 counterexample: the inputs `[0]` and `[1]` have equal positive length
and differ in an element, yet the result is `-inf` — not a finite decibel
value — because the signal power of the all-zero reference is zero. -/
theorem snr_zero_reference_not_finite :
    calculate_snr [(0 : ℚ)] [(1 : ℚ)] = SnrResult.negInf ∧
    SnrResult.asDb (calculate_snr [(0 : ℚ)] [(1 : ℚ)]) = none := by
  have h : calculate_snr [(0 : ℚ)] [(1 : ℚ)] = SnrResult.negInf := by
    norm_num [calculate_snr, signal_power, noise_power, diff_signal]
  exact ⟨h, by rw [h, SnrResult.asDb]⟩

/-- C1 (amended): for equal positive-length sequences that differ somewhere,
provided the reference also has at least one nonzero sample, the result is
the finite decibel value `10 * log10 (mean(a^2) / mean((a-b)^2))`. -/
theorem snr_formula_nondegenerate (a b : List ℚ)
    (hlen : a.length = b.length) (hpos : 0 < a.length) (hne : a ≠ b)
    (hsig : ∃ x ∈ a, x ≠ 0) :
    calculate_snr a b =
      SnrResult.finite (signal_power a / noise_power a b) ∧
    SnrResult.asDb (calculate_snr a b) =
      some (10 * Real.logb 10
        (((signal_power a / noise_power a b : ℚ)) : ℝ)) := by
  have hn : noise_power a b ≠ 0 := fun h =>
    hne ((noise_power_eq_zero_iff a b hlen hpos).mp h)
  have hs : signal_power a ≠ 0 := by
    unfold signal_power
    have hnum : (a.map fun x => x * x).sum ≠ 0 := by
      rw [Ne, sum_sq_eq_zero_iff]
      intro hall
      obtain ⟨x, hx, hxne⟩ := hsig
      exact hxne (hall x hx)
    have hd : (a.length : ℚ) ≠ 0 := by
      exact_mod_cast Nat.pos_iff_ne_zero.mp hpos
    exact div_ne_zero hnum hd
  have h0 : ¬(a.length = 0 ∨ b.length = 0) := by omega
  have hmain : calculate_snr a b
      = SnrResult.finite (signal_power a / noise_power a b) := by
    unfold calculate_snr
    rw [if_neg h0, if_neg hn, if_neg hs]
  exact ⟨hmain, by rw [hmain, SnrResult.asDb]⟩

theorem snr_formula_nondegenerate_witness :
    (([(1 : ℚ), -1, 1, -1]).length = ([(1/2 : ℚ), -1/2, 1/2, -1/2]).length ∧
      0 < ([(1 : ℚ), -1, 1, -1]).length ∧
      [(1 : ℚ), -1, 1, -1] ≠ [(1/2 : ℚ), -1/2, 1/2, -1/2] ∧
      ∃ x ∈ [(1 : ℚ), -1, 1, -1], x ≠ 0) ∧
    calculate_snr [(1 : ℚ), -1, 1, -1] [(1/2 : ℚ), -1/2, 1/2, -1/2] =
      SnrResult.finite (signal_power [(1 : ℚ), -1, 1, -1] /
        noise_power [(1 : ℚ), -1, 1, -1] [(1/2 : ℚ), -1/2, 1/2, -1/2]) :=
  ⟨by norm_num,
    (snr_formula_nondegenerate [(1 : ℚ), -1, 1, -1]
      [(1/2 : ℚ), -1/2, 1/2, -1/2] rfl (by norm_num) (by norm_num)
      (by norm_num)).1⟩

/-- C9: when the reference is all zeros and the test differs from it
somewhere, the non-sentinel branch is taken and the result is `-inf`, a
non-finite value distinct from the sentinel and from every finite decibel
measurement. -/
theorem snr_zero_signal_neg_infinity (a b : List ℚ)
    (hlen : a.length = b.length) (hpos : 0 < a.length)
    (hzero : ∀ x ∈ a, x = 0) (hne : a ≠ b) :
    calculate_snr a b = SnrResult.negInf ∧
    calculate_snr a b ≠ SnrResult.inf ∧
    SnrResult.asDb (calculate_snr a b) = none := by
  have hn : noise_power a b ≠ 0 := fun h =>
    hne ((noise_power_eq_zero_iff a b hlen hpos).mp h)
  have hs : signal_power a = 0 := by
    unfold signal_power
    rw [(sum_sq_eq_zero_iff a).mpr hzero, zero_div]
  have h0 : ¬(a.length = 0 ∨ b.length = 0) := by omega
  have hmain : calculate_snr a b = SnrResult.negInf := by
    unfold calculate_snr
    rw [if_neg h0, if_neg hn, if_pos hs]
  refine ⟨hmain, ?_, ?_⟩
  · rw [hmain]
    intro hcontra
    cases hcontra
  · rw [hmain, SnrResult.asDb]

theorem snr_zero_signal_neg_infinity_witness :
    (([(0 : ℚ)]).length = ([(1 : ℚ)]).length ∧ 0 < ([(0 : ℚ)]).length ∧
      (∀ x ∈ [(0 : ℚ)], x = 0) ∧ [(0 : ℚ)] ≠ [(1 : ℚ)]) ∧
    calculate_snr [(0 : ℚ)] [(1 : ℚ)] = SnrResult.negInf :=
  ⟨by norm_num,
    (snr_zero_signal_neg_infinity [(0 : ℚ)] [(1 : ℚ)] rfl (by norm_num)
      (by norm_num) (by norm_num)).1⟩

/-- C8: the SNR computation is a pure function of its two inputs — equal
inputs give equal results, and a run returns both argument arrays exactly
as they were passed in. -/
theorem calculate_snr_pure (a b a' b' : List ℚ) (h1 : a = a') (h2 : b = b') :
    calculate_snr a b = calculate_snr a' b' ∧
    (calculate_snr_run a b).2 = (a, b) :=
  ⟨by rw [h1, h2], rfl⟩

theorem calculate_snr_pure_witness :
    (([(1 : ℚ)] : List ℚ) = [(1 : ℚ)] ∧ ([(2 : ℚ)] : List ℚ) = [(2 : ℚ)]) ∧
    calculate_snr [(1 : ℚ)] [(2 : ℚ)] = calculate_snr [(1 : ℚ)] [(2 : ℚ)] ∧
    (calculate_snr_run [(1 : ℚ)] [(2 : ℚ)]).2 = ([(1 : ℚ)], [(2 : ℚ)]) :=
  ⟨⟨rfl, rfl⟩, calculate_snr_pure [(1 : ℚ)] [(2 : ℚ)] [(1 : ℚ)] [(2 : ℚ)] rfl rfl⟩

/-- C10: scaling both signals by a nonzero constant leaves the SNR result
unchanged, including whether the sentinel branch is taken. -/
theorem snr_scale_invariant (c : ℚ) (a b : List ℚ) (hc : c ≠ 0)
    (_hlen : a.length = b.length) (_hpos : 0 < a.length) :
    calculate_snr (a.map fun x => c * x) (b.map fun x => c * x)
      = calculate_snr a b := by
  have hc2 : c ^ 2 ≠ 0 := pow_ne_zero 2 hc
  unfold calculate_snr
  rw [signal_power_smul, noise_power_smul]
  simp only [List.length_map]
  have hn2 : (c ^ 2 * noise_power a b = 0) = (noise_power a b = 0) := by
    simp [mul_eq_zero, hc2]
  have hs2 : (c ^ 2 * signal_power a = 0) = (signal_power a = 0) := by
    simp [mul_eq_zero, hc2]
  simp only [hn2, hs2, mul_div_mul_left _ _ hc2]

theorem snr_scale_invariant_witness :
    ((2 : ℚ) ≠ 0 ∧ ([(1 : ℚ), 2]).length = ([(1 : ℚ), 3]).length ∧
      0 < ([(1 : ℚ), 2]).length) ∧
    calculate_snr (([(1 : ℚ), 2]).map fun x => 2 * x)
        (([(1 : ℚ), 3]).map fun x => 2 * x)
      = calculate_snr [(1 : ℚ), 2] [(1 : ℚ), 3] :=
  ⟨by norm_num,
    snr_scale_invariant 2 [(1 : ℚ), 2] [(1 : ℚ), 3] (by norm_num) rfl
      (by norm_num)⟩

/-- C5: aligning two signals of lengths m and n returns two sequences of
length min m n, each equal to the leading samples (the length-min-m-n
initial segment) of the corresponding input, with no other transformation. -/
theorem align_truncates_to_min (a b : List ℚ) :
    (align a b).1.length = min a.length b.length ∧
    (align a b).2.length = min a.length b.length ∧
    (align a b).1 = a.take (min a.length b.length) ∧
    (align a b).2 = b.take (min a.length b.length) :=
  ⟨align_fst_length a b, align_snd_length a b, rfl, rfl⟩

/-- C4 (amended): when every loaded pair aligns to a positive length, the
loop produces exactly one record per catalog entry, in catalog order, and
each record carries the sentinel as reference SNR together with the entry's
label, size, duration in minutes, and bitrate. -/
theorem catalog_records_shape (load : String → List ℚ)
    (fs : List CatalogEntry)
    (h : ∀ f ∈ fs, 0 < min (load f.original).length (load f.compressed).length) :
    (processFiles load fs).length = fs.length ∧
    (∀ i : ℕ, (processFiles load fs)[i]? = (fs[i]?).map (processEntry load)) ∧
    (∀ f ∈ fs,
      (processEntry load f).wav_snr = SnrResult.inf ∧
      (processEntry load f).compressed_snr =
        calculate_snr (align (load f.original) (load f.compressed)).1
          (align (load f.original) (load f.compressed)).2 ∧
      (processEntry load f).algorithm = f.algorithm ∧
      (processEntry load f).size_mb = f.size_mb ∧
      (processEntry load f).duration_min = (f.duration_sec : ℚ) / 60 ∧
      (processEntry load f).bitrate_kbps = f.bitrate_kbps) := by
  refine ⟨by simp [processFiles], fun i => by simp [processFiles], fun f hf => ?_⟩
  have hpos := h f hf
  have hne : (align (load f.original) (load f.compressed)).1 ≠ [] := by
    intro hcontra
    rw [← List.length_eq_zero, align_fst_length] at hcontra
    omega
  exact ⟨calculate_snr_self _ hne, rfl, rfl, rfl, rfl, rfl⟩

theorem catalog_records_shape_witness :
    (∀ f ∈ files, 0 < min ((fun _ => [(1 : ℚ)]) f.original).length
        ((fun _ => [(1 : ℚ)]) f.compressed).length) ∧
    (processFiles (fun _ => [(1 : ℚ)]) files).length = files.length ∧
    (∀ f ∈ files,
      (processEntry (fun _ => [(1 : ℚ)]) f).wav_snr = SnrResult.inf) := by
  have hmain := catalog_records_shape (fun _ => [(1 : ℚ)]) files
    (by intro f _; simp)
  exact ⟨by intro f _; simp, hmain.1, fun f hf => ((hmain.2.2 f hf).1)⟩

/-- C4 counterexample: a successful load that yields empty sample sequences
(a zero-length audio file) makes every reference SNR in the dataset NaN
rather than the sentinel, so the claim fails without a non-degeneracy
assumption. -/
theorem catalog_empty_load_not_sentinel :
    ((processFiles (fun _ => ([] : List ℚ)) files).map fun r => r.wav_snr) =
      [SnrResult.nan, SnrResult.nan, SnrResult.nan, SnrResult.nan] ∧
    SnrResult.nan ≠ SnrResult.inf := by
  constructor
  · rfl
  · intro hcontra
    cases hcontra

/-- C7 (amended): the display substitution replaces exactly the sentinel
with the fixed placeholder float 100 and passes every other value through
unchanged, and the bar labelling step annotates sentinel bars with the
infinity glyph and all other bars with a numeric label. -/
theorem display_substitution_rules (values : List PyFloat) (x : ℝ) :
    (values.map pyVisual).length = values.length ∧
    pyVisual PyFloat.inf = PyFloat.real 100 ∧
    pyVisual (PyFloat.real x) = PyFloat.real x ∧
    pyVisual PyFloat.negInf = PyFloat.negInf ∧
    pyVisual PyFloat.nan = PyFloat.nan ∧
    barLabel PyFloat.inf = BarLabel.infinityGlyph ∧
    barLabel (PyFloat.real x) = BarLabel.numeric (PyFloat.real x) :=
  ⟨by simp, rfl, rfl, rfl, rfl, rfl, rfl⟩

/-- C7 counterexample: the placeholder is not distinct from every possible
real measurement — a genuine (non-sentinel) measurement whose power ratio
is exactly 10^10 displays as the float 100, the same value the sentinel is
replaced with. -/
theorem display_placeholder_collision :
    calculate_snr [(100000 : ℚ)] [(99999 : ℚ)] =
      SnrResult.finite (10 ^ 10) ∧
    SnrResult.toPy (calculate_snr [(100000 : ℚ)] [(99999 : ℚ)]) =
      PyFloat.real 100 ∧
    pyVisual (SnrResult.toPy (calculate_snr [(100000 : ℚ)] [(99999 : ℚ)])) =
      pyVisual PyFloat.inf := by
  have h1 : calculate_snr [(100000 : ℚ)] [(99999 : ℚ)]
      = SnrResult.finite (10 ^ 10) := by
    norm_num [calculate_snr, signal_power, noise_power, diff_signal]
  have h2 : SnrResult.toPy (SnrResult.finite ((10 : ℚ) ^ 10))
      = PyFloat.real 100 := by
    rw [SnrResult.toPy]
    have hcast : (((10 : ℚ) ^ 10 : ℚ) : ℝ) = (10 : ℝ) ^ 10 := by push_cast; ring
    rw [hcast, Real.logb_pow, Real.logb_self_eq_one (by norm_num)]
    norm_num
  refine ⟨h1, ?_, ?_⟩
  · rw [h1]
    exact h2
  · rw [h1, h2, pyVisual, pyVisual]

end SnrAnalysis
